import Mathlib

/-!
Verification of the real-time audio bridge in `src/LiveVoiceAgent.tsx`.

Shallow embedding conventions:
* Floating-point audio samples (JS `Float32Array` values) are modelled as
  exact rationals `ℚ`; sample rates as `ℕ`.
* 16-bit PCM samples (JS `Int16Array` entries) are modelled as `ℤ`, with the
  JS `Int16Array` store conversion (truncate toward zero, wrap modulo 2^16
  into [-32768, 32767]) made explicit.
* `Math.round` is `⌊x + 1/2⌋` (JS rounds half away from ... toward +∞).
* Base64 encoding of the PCM bytes is an injective transport encoding and is
  abstracted: a `TransmitUnit` carries the PCM samples themselves together
  with the MIME string the source attaches.
* The React component's mutable refs and state flags become fields of a
  `BridgeState`; the asynchronous callbacks (`onmessage`, `onended`,
  `onaudioprocess`, button clicks, `onerror`, `onclose`, unmount) become
  events of a step function, reflecting the single-threaded cooperative
  event-loop model of the browser.
-/

/-- JS `Math.round`: round half toward +∞. -/
def jsRound (q : ℚ) : ℤ := ⌊q + 1/2⌋

/-- Truncation toward zero, as performed when a JS number is converted to an
integer for an `Int16Array` store. -/
def jsTrunc (q : ℚ) : ℤ := if 0 ≤ q then ⌊q⌋ else ⌈q⌉

/-- Wrap an integer into the signed 16-bit range, as an `Int16Array` store
does after truncation. -/
def toInt16 (t : ℤ) : ℤ := (t + 32768) % 65536 - 32768

/-- One quantized sample of `startMic`'s capture path
(`LiveVoiceAgent.tsx` line 151):
`pcm16[i] = Math.max(-1, Math.min(1, resampledData[i])) * 0x7FFF`,
stored into an `Int16Array`. -/
def quantizeSample (x : ℚ) : ℤ := toInt16 (jsTrunc (max (-1) (min 1 x) * 32767))

/-- One dequantized sample of `playNextChunk`
(`LiveVoiceAgent.tsx` line 208): `float32[i] = pcm16[i] / 0x7FFF`. -/
def dequantSample (v : ℤ) : ℚ := (v : ℚ) / 32767

/-- Linear-interpolation resampler (`LiveVoiceAgent.tsx` lines 180-196).
`data[index]` accesses are in bounds in every reachable iteration, so the
`getD` default is never consulted. -/
def resample (data : List ℚ) (fromRate toRate : ℕ) : List ℚ :=
  if fromRate = toRate then data
  else
    (List.range ((jsRound ((data.length : ℚ) / ((fromRate : ℚ) / (toRate : ℚ)))).toNat)).map
      (fun (i : ℕ) =>
        let pos : ℚ := (i : ℚ) * ((fromRate : ℚ) / (toRate : ℚ))
        let index : ℕ := (⌊pos⌋).toNat
        let frac : ℚ := pos - (⌊pos⌋ : ℚ)
        if index + 1 < data.length then
          data.getD index 0 * (1 - frac) + data.getD (index + 1) 0 * frac
        else
          data.getD index 0)

/-- The target rate constant of `startMic` (`LiveVoiceAgent.tsx` line 146). -/
def targetSampleRate : ℕ := 16000

/-- The payload handed to `sendRealtimeInput` (`LiveVoiceAgent.tsx`
lines 154-157): the quantized samples (base64 transport abstracted) plus the
MIME descriptor string. -/
structure TransmitUnit where
  samples : List ℤ
  mime : String
  deriving DecidableEq, Repr

/-- A decoded playback chunk: 16-bit PCM samples (source line 61 `pcm16`). -/
abbrev Chunk := List ℤ

/-- The payload fields of a `LiveServerMessage` that `onmessage` inspects
(source lines 52-77): an optional audio part (already base64-decoded to PCM),
an optional text part, and the `interrupted` flag. -/
structure Message where
  audio : Option Chunk
  text : Option String
  interrupted : Bool
  deriving DecidableEq, Repr

/-- The mutable state of one `LiveVoiceAgent` instance: the React state flags
(lines 12-16), the refs (lines 18-22), plus bookkeeping that makes session
identity observable (`nextSession` counts handles ever created by
`ai.live.connect`; `closedSessions` records handles on which `close` was
invoked — the source never invokes it, line 229 is commented out).
`hasStream`/`hasCtx` record whether `streamRef`/`audioContextRef` hold an
object; `streamStopped`/`ctxClosed` whether that object was stopped/closed
(the refs are never nulled). -/
structure BridgeState where
  isConnected : Bool
  isConnecting : Bool
  isListening : Bool
  error : Option String
  session : Option ℕ
  nextSession : ℕ
  closedSessions : List ℕ
  audioQueue : List Chunk
  isPlaying : Bool
  hasStream : Bool
  streamStopped : Bool
  hasCtx : Bool
  ctxClosed : Bool
  deriving DecidableEq, Repr

/-- The state of a freshly mounted component. -/
def initState : BridgeState :=
  { isConnected := false, isConnecting := false, isListening := false
    error := none, session := none, nextSession := 0, closedSessions := []
    audioQueue := [], isPlaying := false
    hasStream := false, streamStopped := false, hasCtx := false, ctxClosed := false }

/-- `playNextChunk` (source lines 198-219): if the queue is empty or no audio
context object exists, clear the playing flag and return; otherwise dequeue
the head, mark playing, and start it (the returned chunk). -/
def playNextChunk (s : BridgeState) : BridgeState × Option Chunk :=
  match s.audioQueue, s.hasCtx with
  | [], _ => ({ s with isPlaying := false }, none)
  | _ :: _, false => ({ s with isPlaying := false }, none)
  | c :: rest, true => ({ s with isPlaying := true, audioQueue := rest }, some c)

/-- The `onmessage` callback (source lines 52-77), in source order: push the
audio payload (if any) and start playback when idle; the text part has no
effect; finally, on `interrupted`, clear the queue and the playing flag.
The second component lists the chunks whose playback was started. -/
def onmessage (m : Message) (s : BridgeState) : BridgeState × List Chunk :=
  let sp :=
    match m.audio with
    | some c =>
        let sq := { s with audioQueue := s.audioQueue ++ [c] }
        if sq.isPlaying then (sq, [])
        else
          let s2 := playNextChunk sq
          (s2.1, s2.2.toList)
    | none => (s, [])
  if m.interrupted then ({ sp.1 with audioQueue := [], isPlaying := false }, sp.2)
  else sp

/-- `stopAll` (source lines 221-234): stop the stream's tracks and close the
audio context when present (the refs themselves are kept, and the session is
neither closed nor cleared — line 229 is commented out), then clear the three
flags. The queue and `isPlaying` ref are untouched. -/
def stopAll (s : BridgeState) : BridgeState :=
  { s with
    streamStopped := s.streamStopped || s.hasStream
    ctxClosed := s.ctxClosed || s.hasCtx
    isConnected := false, isListening := false, isConnecting := false }

/-- `startMic` (source lines 104-177), collapsed to its outcome: on success a
fresh stream and audio context are installed and listening starts; on failure
an error message is set and `stopAll` runs (lines 174-175). -/
def startMic (micOk : Bool) (s : BridgeState) : BridgeState :=
  if micOk then
    { s with hasStream := true, streamStopped := false
             hasCtx := true, ctxClosed := false, isListening := true }
  else
    stopAll { s with error := some "Microphone access error." }

/-- The `processor.onaudioprocess` callback (source lines 140-158): drop the
frame unless a session object is installed and the connected flag holds;
otherwise resample to 16 kHz, quantize, and emit exactly one transmit unit
tagged with the MIME string. -/
def processorFrame (s : BridgeState) (data : List ℚ) (srcRate : ℕ) :
    BridgeState × Option TransmitUnit :=
  if s.session = none ∨ s.isConnected = false then (s, none)
  else
    (s, some { samples := (resample data srcRate targetSampleRate).map quantizeSample
               mime := "audio/pcm;rate=" ++ toString targetSampleRate })

/-- The `connect` function (source lines 28-102), successful path, collapsed:
set the connecting flag and clear the error (lines 29-30); `ai.live.connect`
resolves and `onopen` fires (lines 47-51: connected flag on, connecting flag
off, `startMic`); finally `sessionRef.current = session` (line 90) installs a
fresh handle, merely overwriting any previous one — nothing is torn down and
no guard is consulted anywhere. -/
def connect (micOk : Bool) (s : BridgeState) : BridgeState :=
  let s1 := { s with isConnecting := true, error := none }
  let s2 := startMic micOk { s1 with isConnected := true, isConnecting := false }
  { s2 with session := some s.nextSession, nextSession := s.nextSession + 1 }

/-- The `connect` function, failing path (source lines 91-101): the catch
branch sets a quota-specific or generic error and clears the connecting
flag. -/
def connectFail (quota : Bool) (s : BridgeState) : BridgeState :=
  { s with isConnecting := false
           error := some (if quota then "AI Quota Exceeded. Please wait a few minutes."
                          else "Failed to initialize voice agent.") }

/-- The `onerror` callback (source lines 78-82): set an error and tear down. -/
def onerror (s : BridgeState) : BridgeState :=
  stopAll { s with error := some "Connection error. Please try again." }

/-- The `onclose` callback (source lines 83-86). -/
def onclose (s : BridgeState) : BridgeState :=
  stopAll { s with isConnected := false }

/-- The mic button (source lines 276-281): `disabled={isConnecting}` makes a
click a no-op while connecting; otherwise `onClick={isConnected ? stopAll :
connect}`. `ok` selects the connect outcome, `micOk` the capture outcome. -/
def buttonClick (ok micOk : Bool) (s : BridgeState) : BridgeState :=
  if s.isConnecting then s
  else if s.isConnected then stopAll s
  else if ok then connect micOk s else connectFail false s

/-- The asynchronous events that can reach a mounted bridge: a server
message, a playback-completion (`source.onended`, line 217), a capture frame,
a button click, transport error, remote close, and component unmount
(lines 236-238). -/
inductive Ev where
  | msg (m : Message)
  | ended
  | frame (data : List ℚ) (srcRate : ℕ)
  | click (ok micOk : Bool)
  | errorEv
  | closeEv
  | unmount
  deriving DecidableEq, Repr

/-- One event-loop step; the second component lists chunks whose playback was
started during the step. -/
def step (s : BridgeState) (e : Ev) : BridgeState × List Chunk :=
  match e with
  | .msg m => onmessage m s
  | .ended =>
      let s1 := playNextChunk s
      (s1.1, s1.2.toList)
  | .frame data r => ((processorFrame s data r).1, [])
  | .click ok micOk => (buttonClick ok micOk s, [])
  | .errorEv => (onerror s, [])
  | .closeEv => (onclose s, [])
  | .unmount => (stopAll s, [])

/-- Run a sequence of events, accumulating the started chunks in order. -/
def run (s : BridgeState) : List Ev → BridgeState × List Chunk
  | [] => (s, [])
  | e :: es =>
      let s1 := step s e
      let s2 := run s1.1 es
      (s2.1, s1.2 ++ s2.2)

/-- The audio chunks an event delivers to the queue. -/
def enqueuedEv : Ev → List Chunk
  | .msg m =>
      match m.audio with
      | some c => [c]
      | none => []
  | _ => []

/-- The audio chunks a sequence of events delivers to the queue. -/
def enqueued : List Ev → List Chunk
  | [] => []
  | e :: es => enqueuedEv e ++ enqueued es

/-- A server message carrying one audio chunk and nothing else. -/
def audioMsg (c : Chunk) : Message :=
  { audio := some c, text := none, interrupted := false }

theorem floor_intCast_add_half (n : ℤ) : ⌊((n : ℚ) + 1/2)⌋ = n := by
  rw [Int.floor_eq_iff]
  refine ⟨by linarith, ?_⟩
  have h1 : ((n + 1 : ℤ) : ℚ) = (n : ℚ) + 1 := by norm_cast
  linarith [h1]

/-- Shared length computation: the resampler output length. -/
theorem resample_length (data : List ℚ) (fromRate toRate : ℕ)
    (hf : 0 < fromRate) :
    (resample data fromRate toRate).length =
      (jsRound ((data.length : ℚ) * toRate / fromRate)).toNat := by
  unfold resample
  by_cases h : fromRate = toRate
  · subst h
    simp only [if_pos rfl]
    have hne : (fromRate : ℚ) ≠ 0 := by exact_mod_cast hf.ne'
    rw [mul_div_assoc, div_self hne, mul_one]
    unfold jsRound
    rw [show ((data.length : ℚ) + 1/2) = ((data.length : ℤ) : ℚ) + 1/2 by push_cast; ring]
    rw [floor_intCast_add_half]
    simp
  · rw [if_neg h]
    simp only [List.length_map, List.length_range]
    rw [div_div_eq_mul_div]

theorem toInt16_eq_self (t : ℤ) (h1 : -32768 ≤ t) (h2 : t ≤ 32767) : toInt16 t = t := by
  unfold toInt16
  have h3 : 0 ≤ t + 32768 := by linarith
  have h4 : t + 32768 < 65536 := by linarith
  rw [Int.emod_eq_of_lt h3 h4]
  ring

theorem jsTrunc_sub_le (q : ℚ) : |(jsTrunc q : ℚ) - q| ≤ 1 := by
  unfold jsTrunc
  split
  · rw [abs_le]
    refine ⟨?_, ?_⟩
    · have := Int.sub_one_lt_floor q
      linarith
    · have := Int.floor_le q
      linarith
  · rw [abs_le]
    refine ⟨?_, ?_⟩
    · have := Int.le_ceil q
      linarith
    · have := Int.ceil_lt_add_one q
      linarith

theorem jsTrunc_range (q : ℚ) (h1 : -32767 ≤ q) (h2 : q ≤ 32767) :
    -32768 ≤ jsTrunc q ∧ jsTrunc q ≤ 32767 := by
  unfold jsTrunc
  split
  · refine ⟨Int.le_floor.mpr (by push_cast; linarith), ?_⟩
    have h3 : ⌊q⌋ ≤ ⌊(32767 : ℚ)⌋ := Int.floor_mono h2
    have h4 : ⌊(32767 : ℚ)⌋ = 32767 := by norm_num
    linarith
  · refine ⟨?_, Int.ceil_le.mpr (by push_cast; linarith)⟩
    have h3 : ⌈(-32767 : ℚ)⌉ ≤ ⌈q⌉ := Int.ceil_mono h1
    have h4 : ⌈(-32767 : ℚ)⌉ = -32767 := by
      rw [show ((-32767 : ℚ)) = ((-32767 : ℤ) : ℚ) by norm_num, Int.ceil_intCast]
    linarith

/-- C7: the resampler is the identity when source and target rates are equal:
`resample(data, r, r) == data` (source line 181 returns the input array
unchanged). -/
theorem claim_C7 (data : List ℚ) (r : ℕ) : resample data r r = data := by
  simp [resample]

/-- C3, counterexample: the claim says `resample(data, from, to)` returns
`round(len(data) * from/to)` samples, but on a 6-sample input with
from = 48000, to = 16000 the code returns 2 samples while the claimed formula
gives 18: the claimed ratio is inverted. -/
theorem claim_C3_counterexample :
    (resample (List.replicate 6 (0 : ℚ)) 48000 16000).length ≠
      (jsRound (((List.replicate 6 (0 : ℚ)).length : ℚ) * 48000 / 16000)).toNat ∧
    (48000 : ℕ) ≠ 16000 := by
  refine ⟨?_, by decide⟩
  rw [resample_length _ _ _ (by norm_num)]
  norm_num [jsRound]
  decide

/-- C3, amended: for from ≠ to (rates positive), `resample(data, from, to)`
returns exactly `round(len(data) * to/from)` samples — the target rate over
the source rate, the reciprocal of the claimed ratio (source line 183:
`newLength = Math.round(data.length / (fromRate / toRate))`). -/
theorem claim_C3_amended (data : List ℚ) (fromRate toRate : ℕ)
    (_hne : fromRate ≠ toRate) (hf : 0 < fromRate) :
    (resample data fromRate toRate).length =
      (jsRound ((data.length : ℚ) * toRate / fromRate)).toNat :=
  resample_length data fromRate toRate hf

/-- Witness for the amended C3 at data = [0,0,0], from = 48000, to = 16000. -/
theorem claim_C3_amended_witness :
    (48000 : ℕ) ≠ 16000 ∧ (0 : ℕ) < 48000 ∧
    (resample [0, 0, 0] 48000 16000).length =
      (jsRound ((([0, 0, 0] : List ℚ).length : ℚ) * 16000 / 48000)).toNat :=
  ⟨by decide, by decide, claim_C3_amended [0, 0, 0] 48000 16000 (by decide) (by decide)⟩

/-- C4: the resampler's output length is `round(sourceLength * targetRate /
sourceRate)` for every input and positive rates; in particular a 4096-sample
frame at 48000 Hz resamples to 1365 samples (which is one of the claimed
1365/1366), and the capture callback transmits it as exactly one unit whose
MIME type is `audio/pcm;rate=16000`. -/
theorem claim_C4 :
    (∀ (data : List ℚ) (fromRate toRate : ℕ), 0 < fromRate →
      (resample data fromRate toRate).length =
        (jsRound ((data.length : ℚ) * toRate / fromRate)).toNat) ∧
    (∀ (s : BridgeState) (data : List ℚ), s.session.isSome → s.isConnected = true →
      data.length = 4096 →
      processorFrame s data 48000 =
        (s, some { samples := (resample data 48000 16000).map quantizeSample
                   mime := "audio/pcm;rate=16000" }) ∧
      ((resample data 48000 16000).length = 1365 ∨
        (resample data 48000 16000).length = 1366)) := by
  constructor
  · exact fun data a b h => resample_length data a b h
  · intro s data hs hc hlen
    obtain ⟨k, hk⟩ := Option.isSome_iff_exists.mp hs
    constructor
    · simp only [processorFrame, targetSampleRate]
      rw [if_neg (by simp [hk, hc])]
      rfl
    · rw [resample_length data 48000 16000 (by norm_num), hlen]
      left
      norm_num [jsRound]
      rfl

/-- Witness for C4's connected-path conjunct at a concrete state and frame. -/
theorem claim_C4_witness :
    ((connect true initState).session.isSome ∧
      (connect true initState).isConnected = true ∧
      (List.replicate 4096 (0 : ℚ)).length = 4096) ∧
    processorFrame (connect true initState) (List.replicate 4096 (0 : ℚ)) 48000 =
      (connect true initState,
        some { samples := (resample (List.replicate 4096 (0 : ℚ)) 48000 16000).map quantizeSample
               mime := "audio/pcm;rate=16000" }) ∧
    ((resample (List.replicate 4096 (0 : ℚ)) 48000 16000).length = 1365 ∨
      (resample (List.replicate 4096 (0 : ℚ)) 48000 16000).length = 1366) :=
  ⟨⟨by decide, by decide, by rw [List.length_replicate]⟩,
    claim_C4.2 (connect true initState) (List.replicate 4096 0)
      (by decide) (by decide) (by rw [List.length_replicate])⟩

/-- C8: quantization clamps to [-1, 1] and scales by 32767 with truncation
into a signed 16-bit store, and for every x in [-1, 1] the dequantized value
(division by 32767) is within 1/32767 of x. -/
theorem claim_C8 (x : ℚ) (h1 : -1 ≤ x) (h2 : x ≤ 1) :
    quantizeSample x = toInt16 (jsTrunc (max (-1) (min 1 x) * 32767)) ∧
    |dequantSample (quantizeSample x) - x| ≤ 1 / 32767 := by
  refine ⟨rfl, ?_⟩
  have hclamp : max (-1) (min 1 x) = x := by rw [min_eq_right h2, max_eq_right h1]
  have hy1 : -32767 ≤ x * 32767 := by nlinarith
  have hy2 : x * 32767 ≤ 32767 := by nlinarith
  have hr := jsTrunc_range (x * 32767) hy1 hy2
  have hb := jsTrunc_sub_le (x * 32767)
  unfold quantizeSample dequantSample
  rw [hclamp, toInt16_eq_self _ hr.1 hr.2]
  have h32 : (0 : ℚ) < 32767 := by norm_num
  rw [show (jsTrunc (x * 32767) : ℚ) / 32767 - x =
        ((jsTrunc (x * 32767) : ℚ) - x * 32767) / 32767 by field_simp; ring]
  rw [abs_div, abs_of_pos h32]
  exact (div_le_div_iff_of_pos_right h32).mpr hb

/-- Witness for C8 at x = 1/2. -/
theorem claim_C8_witness :
    (-1 : ℚ) ≤ 1 / 2 ∧ (1 / 2 : ℚ) ≤ 1 ∧
    |dequantSample (quantizeSample (1 / 2)) - 1 / 2| ≤ 1 / 32767 :=
  ⟨by norm_num, by norm_num, (claim_C8 (1 / 2) (by norm_num) (by norm_num)).2⟩

/-- C9: a capture frame processed with no installed session object, or with
the connected flag down, is dropped: nothing is transmitted and the bridge
state is returned unchanged (source line 141's early return). -/
theorem claim_C9 (s : BridgeState) (data : List ℚ) (srcRate : ℕ)
    (h : s.session = none ∨ s.isConnected = false) :
    processorFrame s data srcRate = (s, none) := by
  unfold processorFrame
  rw [if_pos h]

/-- Witness for C9 at the freshly mounted state. -/
theorem claim_C9_witness :
    (initState.session = none ∨ initState.isConnected = false) ∧
    processorFrame initState [1, 2, 3] 48000 = (initState, none) :=
  ⟨Or.inl rfl, claim_C9 initState [1, 2, 3] 48000 (Or.inl rfl)⟩

/-- C10: `playNextChunk` invoked with an empty queue or no audio context
clears the playing flag and returns without dequeuing; consequently an audio
message arriving while the context is absent leaves its chunk queued (neither
discarded nor played) with the playing flag false. -/
theorem claim_C10 :
    (∀ s : BridgeState, s.audioQueue = [] ∨ s.hasCtx = false →
      playNextChunk s = ({ s with isPlaying := false }, none)) ∧
    (∀ (s : BridgeState) (c : Chunk), s.hasCtx = false → s.isPlaying = false →
      onmessage (audioMsg c) s =
        ({ s with audioQueue := s.audioQueue ++ [c], isPlaying := false }, [])) := by
  constructor
  · intro s h
    rcases hq : s.audioQueue with _ | ⟨a, rest⟩
    · simp [playNextChunk, hq]
    · have hctx : s.hasCtx = false := by
        rcases h with h | h
        · rw [hq] at h
          exact absurd h (by simp)
        · exact h
      simp [playNextChunk, hq, hctx]
  · intro s c hctx hplay
    rcases hq : s.audioQueue with _ | ⟨a, rest⟩ <;>
      simp [onmessage, audioMsg, playNextChunk, hplay, hctx, hq]

/-- Witness for C10 at the freshly mounted state. -/
theorem claim_C10_witness :
    playNextChunk initState = ({ initState with isPlaying := false }, none) ∧
    onmessage (audioMsg [5]) initState =
      ({ initState with audioQueue := initState.audioQueue ++ [[5]], isPlaying := false }, []) :=
  ⟨claim_C10.1 initState (Or.inl rfl), claim_C10.2 initState [5] rfl rfl⟩

/-- C2, counterexample: `stopAll` does not clear the PlaybackQueue — invoked
on a state holding one queued chunk, the queue is still non-empty afterwards
(the source's `stopAll`, lines 221-234, never touches `audioQueue`). -/
theorem claim_C2_counterexample :
    (stopAll { initState with audioQueue := [[1]] }).audioQueue ≠ [] := by
  decide

/-- C2, amended: after `stopAll`, invoked from any state, the connected,
listening and connecting flags are all false, the capture stream's tracks are
stopped and the output audio context closed whenever they exist — but the
PlaybackQueue is left exactly as it was (not cleared) and the playing flag is
not reset. -/
theorem claim_C2_amended (s : BridgeState) :
    (stopAll s).isConnected = false ∧ (stopAll s).isListening = false ∧
    (stopAll s).isConnecting = false ∧
    (stopAll s).streamStopped = (s.streamStopped || s.hasStream) ∧
    (stopAll s).ctxClosed = (s.ctxClosed || s.hasCtx) ∧
    (stopAll s).audioQueue = s.audioQueue ∧
    (stopAll s).isPlaying = s.isPlaying :=
  ⟨rfl, rfl, rfl, rfl, rfl, rfl, rfl⟩

/-- C1, counterexample: the `connect` function itself is not guarded — run on
a state whose connecting flag is up it proceeds and installs a handle; and in
the purely button-driven trace connect → remote close → connect, two
SessionHandles are created (`nextSession = 2`) while none is ever closed
(`closedSessions = []`): the previous handle is not torn down before the new
connect completes, so two live handles coexist. -/
theorem claim_C1_counterexample :
    (connect true { initState with isConnecting := true }).session = some 0 ∧
    ({ initState with isConnecting := true } : BridgeState).session = none ∧
    (run initState [Ev.click true true, Ev.closeEv, Ev.click true true]).1.nextSession = 2 ∧
    (run initState [Ev.click true true, Ev.closeEv, Ev.click true true]).1.closedSessions = [] := by
  refine ⟨by decide, by decide, by decide, by decide⟩

/-- C1, amended: the raw `connect` function has no guard, but the only
user-facing entry point (the mic button) prevents re-entrancy: it is disabled
while the connecting flag is up (a click is a complete no-op) and routes to
`stopAll` while connected — so a click while Connecting or Connected starts
no connect attempt and creates no second SessionHandle (the session reference
and the handle counter are unchanged). Previous handles are never torn down;
they are merely overwritten by a later successful connect. -/
theorem claim_C1_amended (ok micOk : Bool) (s : BridgeState)
    (h : s.isConnecting = true ∨ s.isConnected = true) :
    (buttonClick ok micOk s).nextSession = s.nextSession ∧
    (buttonClick ok micOk s).session = s.session ∧
    (s.isConnecting = true → buttonClick ok micOk s = s) := by
  by_cases hc : s.isConnecting = true
  · simp [buttonClick, hc]
  · have hcc : s.isConnected = true := h.resolve_left hc
    simp [buttonClick, hc, hcc, stopAll]

/-- Witness for the amended C1 at a state whose connecting flag is up. -/
theorem claim_C1_amended_witness :
    (({ initState with isConnecting := true } : BridgeState).isConnecting = true ∨
      ({ initState with isConnecting := true } : BridgeState).isConnected = true) ∧
    (buttonClick true true { initState with isConnecting := true }).nextSession =
      ({ initState with isConnecting := true } : BridgeState).nextSession ∧
    (buttonClick true true { initState with isConnecting := true }).session =
      ({ initState with isConnecting := true } : BridgeState).session ∧
    (({ initState with isConnecting := true } : BridgeState).isConnecting = true →
      buttonClick true true { initState with isConnecting := true } =
        { initState with isConnecting := true }) :=
  ⟨Or.inl rfl, claim_C1_amended true true { initState with isConnecting := true } (Or.inl rfl)⟩

theorem stopAll_queue (s : BridgeState) : (stopAll s).audioQueue = s.audioQueue := rfl

theorem startMic_queue (micOk : Bool) (s : BridgeState) :
    (startMic micOk s).audioQueue = s.audioQueue := by
  cases micOk <;> rfl

theorem connect_queue (micOk : Bool) (s : BridgeState) :
    (connect micOk s).audioQueue = s.audioQueue := by
  cases micOk <;> rfl

theorem buttonClick_queue (ok micOk : Bool) (s : BridgeState) :
    (buttonClick ok micOk s).audioQueue = s.audioQueue := by
  unfold buttonClick
  split_ifs <;> simp [stopAll_queue, connect_queue, connectFail]

theorem processorFrame_state (s : BridgeState) (data : List ℚ) (srcRate : ℕ) :
    (processorFrame s data srcRate).1 = s := by
  unfold processorFrame
  split <;> rfl

theorem playNextChunk_cases (s : BridgeState) :
    (∀ x ∈ (playNextChunk s).1.audioQueue, x ∈ s.audioQueue) ∧
    (∀ x, (playNextChunk s).2 = some x → x ∈ s.audioQueue) := by
  rcases hq : s.audioQueue with _ | ⟨a, rest⟩ <;> cases hctx : s.hasCtx <;>
    simp [playNextChunk, hq, hctx] <;> intro x hx <;> simp [hx]

theorem step_subset (s : BridgeState) (e : Ev) :
    (∀ x ∈ (step s e).1.audioQueue, x ∈ s.audioQueue ∨ x ∈ enqueuedEv e) ∧
    (∀ x ∈ (step s e).2, x ∈ s.audioQueue ∨ x ∈ enqueuedEv e) := by
  cases e with
  | msg m =>
    cases hma : m.audio with
    | none =>
      cases hi : m.interrupted <;>
        simp [step, onmessage, hma, hi, enqueuedEv]
    | some c =>
      cases hi : m.interrupted <;> by_cases hp : s.isPlaying = true <;>
        rcases hq : s.audioQueue with _ | ⟨a, rest⟩ <;> cases hctx : s.hasCtx <;>
        simp [step, onmessage, playNextChunk, hma, hi, hp, hq, hctx, enqueuedEv] <;>
        intros <;> tauto
  | ended =>
    rcases hq : s.audioQueue with _ | ⟨a, rest⟩ <;> cases hctx : s.hasCtx <;>
      simp [step, playNextChunk, hq, hctx, enqueuedEv] <;> intros <;> tauto
  | frame data r =>
    simp [step, processorFrame_state, enqueuedEv]
  | click ok micOk =>
    simp [step, buttonClick_queue, enqueuedEv]
  | errorEv =>
    simp [step, onerror, stopAll_queue, enqueuedEv]
  | closeEv =>
    simp [step, onclose, stopAll_queue, enqueuedEv]
  | unmount =>
    simp [step, stopAll_queue, enqueuedEv]

theorem run_append (s : BridgeState) (es1 es2 : List Ev) :
    run s (es1 ++ es2) =
      ((run (run s es1).1 es2).1, (run s es1).2 ++ (run (run s es1).1 es2).2) := by
  induction es1 generalizing s with
  | nil => simp [run]
  | cons e es ih => simp [run, ih, List.append_assoc]

theorem run_played_subset (s : BridgeState) (evs : List Ev) :
    ∀ x ∈ (run s evs).2, x ∈ s.audioQueue ∨ x ∈ enqueued evs := by
  induction evs generalizing s with
  | nil => simp [run]
  | cons e es ih =>
    intro x hx
    have hx' : x ∈ (step s e).2 ∨ x ∈ (run (step s e).1 es).2 := by
      simpa [run] using hx
    have henq : enqueued (e :: es) = enqueuedEv e ++ enqueued es := rfl
    rcases hx' with h | h
    · rcases (step_subset s e).2 x h with h' | h'
      · exact Or.inl h'
      · refine Or.inr ?_
        rw [henq]
        exact List.mem_append_left _ h'
    · rcases ih (step s e).1 x h with h' | h'
      · rcases (step_subset s e).1 x h' with h'' | h''
        · exact Or.inl h''
        · refine Or.inr ?_
          rw [henq]
          exact List.mem_append_left _ h''
      · refine Or.inr ?_
        rw [henq]
        exact List.mem_append_right _ h'

/-- C5: processing any message carrying the interruption flag leaves the
PlaybackQueue empty and the playing flag false, unconditionally; and in every
possible continuation of the event loop, every chunk whose playback starts
was delivered by an event after the interruption — no chunk queued before the
interruption is ever played afterward. -/
theorem claim_C5 (s : BridgeState) (m : Message) (evs : List Ev)
    (hm : m.interrupted = true) :
    (onmessage m s).1.audioQueue = [] ∧
    (onmessage m s).1.isPlaying = false ∧
    (run (onmessage m s).1 evs).2 ⊆ enqueued evs := by
  have h1 : (onmessage m s).1.audioQueue = [] := by
    unfold onmessage
    rw [if_pos hm]
  have h2 : (onmessage m s).1.isPlaying = false := by
    unfold onmessage
    rw [if_pos hm]
  refine ⟨h1, h2, ?_⟩
  intro x hx
  rcases run_played_subset (onmessage m s).1 evs x hx with h | h
  · rw [h1] at h
    exact absurd h (by simp)
  · exact h

/-- Witness for C5: an interruption with chunks queued and one playing,
followed by a fresh audio message and a completion event. -/
theorem claim_C5_witness :
    ({ audio := none, text := none, interrupted := true } : Message).interrupted = true ∧
    (onmessage { audio := none, text := none, interrupted := true }
        { initState with audioQueue := [[1], [2]], isPlaying := true, hasCtx := true }).1.audioQueue = [] ∧
    (onmessage { audio := none, text := none, interrupted := true }
        { initState with audioQueue := [[1], [2]], isPlaying := true, hasCtx := true }).1.isPlaying = false ∧
    (run (onmessage { audio := none, text := none, interrupted := true }
        { initState with audioQueue := [[1], [2]], isPlaying := true, hasCtx := true }).1
      [Ev.msg (audioMsg [9]), Ev.ended]).2 ⊆ enqueued [Ev.msg (audioMsg [9]), Ev.ended] :=
  ⟨rfl, claim_C5 { initState with audioQueue := [[1], [2]], isPlaying := true, hasCtx := true }
    { audio := none, text := none, interrupted := true } [Ev.msg (audioMsg [9]), Ev.ended] rfl⟩

/-- A burst of audio-only server messages, one per chunk, in order. -/
def msgsOf (cs : List Chunk) : List Ev := cs.map (fun c => Ev.msg (audioMsg c))

theorem run_msgs_playing (cs : List Chunk) (s : BridgeState)
    (hp : s.isPlaying = true) :
    run s (msgsOf cs) = ({ s with audioQueue := s.audioQueue ++ cs }, []) := by
  induction cs generalizing s with
  | nil => simp [msgsOf, run]
  | cons c rest ih =>
    have hstep : step s (Ev.msg (audioMsg c)) =
        ({ s with audioQueue := s.audioQueue ++ [c] }, []) := by
      simp [step, onmessage, audioMsg, hp]
    have ih' := ih { s with audioQueue := s.audioQueue ++ [c] } hp
    have hmsgs : msgsOf (c :: rest) = Ev.msg (audioMsg c) :: msgsOf rest := rfl
    have hrun : run s (Ev.msg (audioMsg c) :: msgsOf rest) =
        ((run (step s (Ev.msg (audioMsg c))).1 (msgsOf rest)).1,
          (step s (Ev.msg (audioMsg c))).2 ++
            (run (step s (Ev.msg (audioMsg c))).1 (msgsOf rest)).2) := rfl
    rw [hmsgs, hrun, hstep]
    dsimp only
    rw [ih']
    simp [BridgeState.mk.injEq, List.append_assoc]

theorem run_ended_drain (l : List Chunk) (s : BridgeState)
    (hp : s.isPlaying = true) (hc : s.hasCtx = true) (hq : s.audioQueue = l) :
    run s (List.replicate (l.length + 1) Ev.ended) =
      ({ s with audioQueue := [], isPlaying := false }, l) := by
  induction l generalizing s with
  | nil =>
    cases s
    subst hp hc
    simp only at hq
    subst hq
    simp [run, step, playNextChunk]
  | cons c rest ih =>
    have hstep : step s Ev.ended =
        ({ s with audioQueue := rest, isPlaying := true }, [c]) := by
      simp [step, playNextChunk, hq, hc]
    have ih' := ih { s with audioQueue := rest, isPlaying := true } rfl hc rfl
    rw [show (c :: rest).length + 1 = (rest.length + 1) + 1 by simp,
      List.replicate_succ]
    have hrun : run s (Ev.ended :: List.replicate (rest.length + 1) Ev.ended) =
        ((run (step s Ev.ended).1 (List.replicate (rest.length + 1) Ev.ended)).1,
          (step s Ev.ended).2 ++
            (run (step s Ev.ended).1 (List.replicate (rest.length + 1) Ev.ended)).2) := rfl
    rw [hrun, hstep]
    dsimp only
    rw [ih']
    simp [BridgeState.mk.injEq]

/-- C6: strict FIFO playback. From an idle connected state (empty queue,
playing flag down, output context present), chunks arriving in order `cs`
with no interruption are started exactly in order `cs` — the first starts
immediately, each later one only when the previous chunk's completion
callback fires — and after the last completion the queue is empty and the
playing flag is false. A start only ever happens from an idle flag or a
completion callback, so the single flag admits one playback cycle at a
time. -/
theorem claim_C6 (cs : List Chunk) (s : BridgeState)
    (hq : s.audioQueue = []) (hp : s.isPlaying = false) (hc : s.hasCtx = true) :
    (run s (msgsOf cs ++ List.replicate cs.length Ev.ended)).2 = cs ∧
    (run s (msgsOf cs ++ List.replicate cs.length Ev.ended)).1.audioQueue = [] ∧
    (run s (msgsOf cs ++ List.replicate cs.length Ev.ended)).1.isPlaying = false := by
  rcases cs with _ | ⟨c, rest⟩
  · simp [msgsOf, run, hq, hp]
  · have trace_eq : msgsOf (c :: rest) ++ List.replicate (c :: rest).length Ev.ended =
        Ev.msg (audioMsg c) ::
          (msgsOf rest ++ List.replicate (rest.length + 1) Ev.ended) := by
      simp [msgsOf]
    have hstep : step s (Ev.msg (audioMsg c)) =
        ({ s with audioQueue := [], isPlaying := true }, [c]) := by
      simp [step, onmessage, audioMsg, playNextChunk, hq, hp, hc]
    have hrun : run s (Ev.msg (audioMsg c) ::
          (msgsOf rest ++ List.replicate (rest.length + 1) Ev.ended)) =
        ((run (step s (Ev.msg (audioMsg c))).1
            (msgsOf rest ++ List.replicate (rest.length + 1) Ev.ended)).1,
          (step s (Ev.msg (audioMsg c))).2 ++
            (run (step s (Ev.msg (audioMsg c))).1
              (msgsOf rest ++ List.replicate (rest.length + 1) Ev.ended)).2) := rfl
    rw [trace_eq, hrun, hstep]
    dsimp only
    rw [run_append]
    rw [run_msgs_playing rest { s with audioQueue := [], isPlaying := true } rfl]
    dsimp only
    simp only [List.nil_append]
    rw [run_ended_drain rest { s with audioQueue := rest, isPlaying := true } rfl hc rfl]
    simp

/-- Witness for C6: three chunks A = [1], B = [2], C = [3] from the connected
idle state. -/
theorem claim_C6_witness :
    (({ initState with hasCtx := true } : BridgeState).audioQueue = [] ∧
      ({ initState with hasCtx := true } : BridgeState).isPlaying = false ∧
      ({ initState with hasCtx := true } : BridgeState).hasCtx = true) ∧
    (run { initState with hasCtx := true }
        (msgsOf [[1], [2], [3]] ++ List.replicate 3 Ev.ended)).2 = [[1], [2], [3]] ∧
    (run { initState with hasCtx := true }
        (msgsOf [[1], [2], [3]] ++ List.replicate 3 Ev.ended)).1.audioQueue = [] ∧
    (run { initState with hasCtx := true }
        (msgsOf [[1], [2], [3]] ++ List.replicate 3 Ev.ended)).1.isPlaying = false :=
  ⟨⟨rfl, rfl, rfl⟩, claim_C6 [[1], [2], [3]] { initState with hasCtx := true } rfl rfl rfl⟩
